import Mathlib

/-!
Verification development for the `backer` backup-file scanner.

The Rust sources (`src/patterns.rs`, `src/http.rs`, `src/scanner.rs`,
`src/utils.rs`) are shallowly embedded below.  Pure string manipulation is
modelled over `List Char` (Rust `str` operations on the ASCII strings this
program builds agree with these list functions); HTTP traffic is modelled by
an oracle from requests to outcomes; the `tokio` semaphore is modelled by an
explicit transition system; the file system is modelled by the contents of
the two files the scanner writes.  Rust `HashSet` insertion is modelled as a
first-occurrence deduplicated list: membership and cardinality agree with the
real set, iteration order (unspecified in Rust) is fixed to insertion order.
-/

namespace Backer

/-! ## String helpers (models of Rust `str` operations) -/

/-- Model of Rust `str::contains(char)`. -/
def strHasChar (s : String) (c : Char) : Bool :=
  s.toList.contains c

/-- Model of Rust `str::ends_with(&str)` via character lists. -/
def strEndsWith (s suf : String) : Bool :=
  suf.toList.isSuffixOf s.toList

/-- Model of Rust `str::starts_with(&str)` via character lists. -/
def strStartsWith (s pre : String) : Bool :=
  pre.toList.isPrefixOf s.toList

/-- Model of Rust `str::contains(&str)`: some contiguous occurrence of the
pattern's characters. -/
def listHasSub (pat : List Char) : List Char → Bool
  | [] => pat.isEmpty
  | c :: cs => pat.isPrefixOf (c :: cs) || listHasSub pat cs

/-- String wrapper for `listHasSub`. -/
def strHasSub (s pat : String) : Bool :=
  listHasSub pat.toList s.toList

/-- Model of Rust `str::to_lowercase` (ASCII strings). -/
def strLower (s : String) : String :=
  ⟨s.toList.map Char.toLower⟩

/-- Model of Rust `str::split(char)`: splits at every occurrence of the
separator, yielding at least one (possibly empty) piece. -/
def splitChar (sep : Char) : List Char → List (List Char)
  | [] => [[]]
  | c :: cs =>
    let r := splitChar sep cs
    if c = sep then [] :: r
    else
      match r with
      | [] => [[c]]
      | h :: t => (c :: h) :: t

/-- Split a string at a character, as Rust `host.split('.')` does. -/
def strSplit (s : String) (sep : Char) : List String :=
  (splitChar sep s.toList).map fun l => ⟨l⟩

/-- Model of Rust `str::replace(from, to)` (all occurrences, left to right).
The `fuel` argument only makes the recursion structural; every recursive call
shortens the list, so with `fuel` initialised to the list length the
fuel-exhausted branch is never taken. -/
def replaceAllAux (pat rep : List Char) : Nat → List Char → List Char
  | _, [] => []
  | 0, l => l
  | fuel + 1, c :: cs =>
    if pat.isPrefixOf (c :: cs) then
      rep ++ replaceAllAux pat rep fuel (cs.drop (pat.length - 1))
    else c :: replaceAllAux pat rep fuel cs

/-- String wrapper for `replaceAllAux`. -/
def strReplace (s pat rep : String) : String :=
  ⟨replaceAllAux pat.toList rep.toList s.toList.length s.toList⟩

/-- Break a character list at the first occurrence of a pattern, returning
the parts before and after it, or `none` when the pattern does not occur. -/
def breakSubAux (pat : List Char) : List Char → Option (List Char × List Char)
  | [] => none
  | c :: cs =>
    if pat.isPrefixOf (c :: cs) then some ([], (c :: cs).drop pat.length)
    else
      match breakSubAux pat cs with
      | some (a, b) => some (c :: a, b)
      | none => none

/-- Split a string at the first occurrence of a substring. -/
def strSplitSub (s pat : String) : Option (String × String) :=
  (breakSubAux pat.toList s.toList).map fun p => (⟨p.1⟩, ⟨p.2⟩)

/-- Model of Rust `str::trim_start_matches('.')`: drop all leading dots. -/
def trimLeadingDots (s : String) : String :=
  ⟨s.toList.dropWhile fun c => c = '.'⟩

/-! ## First-occurrence deduplication (model of `HashSet` insertion order) -/

/-- Deduplication worker: `seen` holds the elements already emitted. -/
def dedupSeen (seen : List String) : List String → List String
  | [] => []
  | x :: xs =>
    if x ∈ seen then dedupSeen seen xs
    else x :: dedupSeen (x :: seen) xs

/-- Deduplicate a list keeping the first occurrence of each element, the
membership-faithful model of inserting the list's elements into a Rust
`HashSet` one by one. -/
def dedupKeepFirst (l : List String) : List String := dedupSeen [] l

/-! ## Domain extraction (`src/patterns.rs`, `extract_domain`) -/

/-- Embedding of `extract_domain` from `src/patterns.rs`.  Note the Rust
control flow: when the host has exactly three labels and the second-to-last
label is at most three characters, both inner branches are skipped and the
function falls through to returning the whole host. -/
def extract_domain (host : String) : String :=
  if host.toList.all (fun c => c.isDigit || c = '.') then host
  else
    let parts := strSplit host '.'
    if parts.length ≥ 2 then
      if parts.length > 2 ∧ (parts.getD (parts.length - 2) "").length ≤ 3 then
        if parts.length > 3 then parts.getD (parts.length - 3) "" else host
      else parts.getD (parts.length - 2) ""
    else host

/-- The domain-extraction rule exactly as the specification words it
(spec §4.1): IP hosts map to themselves; otherwise take the third-from-last
label when the second-to-last label is at most three characters and there are
at least four labels, and the second-to-last label in every other case. -/
def extract_domain_spec (host : String) : String :=
  if host.toList.all (fun c => c.isDigit || c = '.') then host
  else
    let parts := strSplit host '.'
    if parts.length ≥ 2 then
      if (parts.getD (parts.length - 2) "").length ≤ 3 ∧ parts.length ≥ 4 then
        parts.getD (parts.length - 3) ""
      else parts.getD (parts.length - 2) ""
    else host

/-! ## Candidate generator (`src/patterns.rs`, `PatternGenerator`) -/

/-- Embedding of the `PatternGenerator` struct. -/
structure PatternGenerator where
  prefixes : List String
  full_paths : List String
  hard_coded_suffixes : List String
  domain_placeholders : List String
  backup_dirs : List String

/-- Embedding of `PatternGenerator::new`. -/
def PatternGenerator.new : PatternGenerator where
  prefixes := []
  full_paths := []
  hard_coded_suffixes := [".rar", ".zip", ".tar.gz", ".tar", ".7z", ".bak"]
  domain_placeholders :=
    ["{domain}", "backup-{domain}", "{domain}-backup", "bak-{domain}",
     "{domain}-bak", "www-{domain}", "{domain}-old", "old-{domain}",
     "{domain}-archive", "archive-{domain}", "{domain}_backup",
     "backup_{domain}", "{domain}_bak", "bak_{domain}", "{domain}_old",
     "old_{domain}", "{domain}_archive", "archive_{domain}"]
  backup_dirs := ["backup", "backups"]

/-- Embedding of `PatternGenerator::generate_domain_variants`. -/
def PatternGenerator.generate_domain_variants (g : PatternGenerator)
    (domain : String) : List String :=
  [domain] ++
  g.domain_placeholders.map (fun p => strReplace p "{domain}" domain) ++
  (let clean_domain : String := ⟨domain.toList.filter fun c => c.isAlphanum⟩
   if clean_domain ≠ domain then [clean_domain] else [])

/-- Insertion sequence of `PatternGenerator::generate_root_urls`: the
candidate URLs in the order the Rust code inserts them into the `HashSet`. -/
def PatternGenerator.rootCandidates (g : PatternGenerator)
    (base_url domain : String) : List String :=
  g.full_paths.map (fun path => base_url ++ "/" ++ path) ++
  g.prefixes.flatMap (fun pre =>
    if strHasChar pre '.' then [base_url ++ "/" ++ pre]
    else g.hard_coded_suffixes.map fun suf => base_url ++ "/" ++ pre ++ suf) ++
  g.hard_coded_suffixes.map (fun suf => base_url ++ "/" ++ domain ++ suf) ++
  (g.generate_domain_variants domain).flatMap (fun variant =>
    g.hard_coded_suffixes.map fun suf => base_url ++ "/" ++ variant ++ suf)

/-- Insertion sequence of `PatternGenerator::generate_backup_dir_urls`. -/
def PatternGenerator.dirCandidates (g : PatternGenerator)
    (base_url domain : String) : List String :=
  g.backup_dirs.flatMap fun dir =>
    g.hard_coded_suffixes.map
      (fun suf => base_url ++ "/" ++ dir ++ "/" ++ domain ++ suf) ++
    (["backup", "site", "www", "web", "database", "db"].flatMap fun common_name =>
      g.hard_coded_suffixes.map fun suf =>
        base_url ++ "/" ++ dir ++ "/" ++ common_name ++ suf) ++
    g.prefixes.flatMap (fun pre =>
      if strHasChar pre '.' then [base_url ++ "/" ++ dir ++ "/" ++ pre]
      else g.hard_coded_suffixes.map fun suf =>
        base_url ++ "/" ++ dir ++ "/" ++ pre ++ suf) ++
    g.full_paths.flatMap (fun path =>
      (if strStartsWith path "." then
        let no_dot := trimLeadingDots path
        if no_dot ≠ "" then [base_url ++ "/" ++ dir ++ "/" ++ no_dot] else []
      else []) ++
      [base_url ++ "/" ++ dir ++ "/" ++ path]) ++
    (g.generate_domain_variants domain).flatMap (fun variant =>
      g.hard_coded_suffixes.map fun suf =>
        base_url ++ "/" ++ dir ++ "/" ++ variant ++ suf)

/-- Root-tier candidate set of `generate_urls` as a deduplicated list. -/
def PatternGenerator.rootUrls (g : PatternGenerator)
    (base_url domain : String) : List String :=
  dedupKeepFirst (g.rootCandidates base_url domain)

/-- Directory-tier candidate set of `generate_urls` as a deduplicated list. -/
def PatternGenerator.dirUrls (g : PatternGenerator)
    (base_url domain : String) : List String :=
  dedupKeepFirst (g.dirCandidates base_url domain)

/-- Minimal model of `url::Url::parse` followed by `scheme()`/`host_str()`
for the absolute `scheme://host` URLs this scanner consumes: the scheme is
everything before the first `"://"`, the host everything after it up to the
first `/`.  Parsing fails when either part is empty or the separator is
missing (the `Err`/`None` paths of the Rust code). -/
def parseSchemeHost (url : String) : Option (String × String) :=
  match strSplitSub url "://" with
  | none => none
  | some (scheme, rest) =>
    if scheme = "" then none
    else
      match strSplit rest '/' with
      | [] => none
      | host :: _ => if host = "" then none else some (scheme, host)

/-- Embedding of `PatternGenerator::generate_urls`: root-tier URLs first,
then directory-tier URLs, `None` when the target URL fails to parse. -/
def PatternGenerator.generate_urls (g : PatternGenerator)
    (target_url : String) : Option (List String) :=
  match parseSchemeHost target_url with
  | none => none
  | some (scheme, host) =>
    let domain := extract_domain host
    let base_url := scheme ++ "://" ++ host
    some (g.rootUrls base_url domain ++ g.dirUrls base_url domain)

/-! ## Probe client (`src/http.rs`) -/

/-- Embedding of the free function `is_backup_file_extension`, clause for
clause in the source's order.  The `"/.git/HEAD"` clause is kept verbatim:
the source tests it against the lowercased URL. -/
def is_backup_file_extension (url : String) : Bool :=
  let url_lower := strLower url
  strEndsWith url_lower ".zip" ||
  strEndsWith url_lower ".rar" ||
  strEndsWith url_lower ".tar" ||
  strEndsWith url_lower ".tar.gz" ||
  strEndsWith url_lower ".7z" ||
  strEndsWith url_lower ".sql" ||
  strEndsWith url_lower ".sql.gz" ||
  strEndsWith url_lower ".sql.bz2" ||
  strEndsWith url_lower ".sqlite" ||
  strEndsWith url_lower ".sqlite3" ||
  strEndsWith url_lower ".db" ||
  strEndsWith url_lower ".mdb" ||
  strEndsWith url_lower ".dump" ||
  strEndsWith url_lower ".bak" ||
  strEndsWith url_lower ".old" ||
  strEndsWith url_lower ".backup" ||
  strEndsWith url_lower ".back" ||
  strEndsWith url_lower "_backup" ||
  strEndsWith url_lower "-backup" ||
  strEndsWith url_lower ".copy" ||
  strEndsWith url_lower ".orig" ||
  strEndsWith url_lower ".original" ||
  strEndsWith url_lower ".txt" ||
  strEndsWith url_lower "/.git/config" ||
  strEndsWith url_lower "/.git/HEAD" ||
  strEndsWith url_lower "/.svn/entries" ||
  strEndsWith url_lower "/.env" ||
  strEndsWith url_lower "/.htpasswd" ||
  strEndsWith url_lower "/wp-config.php.bak" ||
  strEndsWith url_lower "/config.php.bak" ||
  strHasSub url_lower ".config." ||
  strHasSub url_lower "/.git/" ||
  strHasSub url_lower "/.svn/" ||
  strEndsWith url_lower ".tmp" ||
  strEndsWith url_lower ".temp" ||
  strEndsWith url_lower ".swp" ||
  strEndsWith url_lower ".save" ||
  strEndsWith url_lower ".old.php"

/-- HTTP method of a probe request. -/
inductive Method where
  | head
  | get
deriving DecidableEq, Repr

/-- Request headers, the output of `generate_random_headers` (randomness is
externalised: the generated header list is an input of the embedding). -/
abbrev Headers := List (String × String)

/-- A request as issued by the probe client: method, URL, headers, and the
timeout in seconds attached to it. -/
structure HttpRequest where
  method : Method
  url : String
  headers : Headers
  timeoutSecs : Nat
deriving DecidableEq, Repr

/-- A response as observed by the probe client. -/
structure HttpResponse where
  status : Nat
  contentType : Option String
  contentLength : Option Nat
  location : Option String
deriving DecidableEq, Repr

/-- Outcome of sending one request: elapsed timeout, transport error (DNS,
TLS, connect, read), or a response. -/
inductive ReqOutcome where
  | timeout
  | transErr
  | ok (resp : HttpResponse)
deriving DecidableEq, Repr

/-- A network oracle assigning an outcome to every request. -/
abbrev Net := HttpRequest → ReqOutcome

/-- The error type of the probe client's `Result` values; `http` stands for
a propagated `reqwest` transport error. -/
inductive NetErr where
  | http
deriving DecidableEq, Repr

/-- Embedding of the `ScanResult` struct from `src/lib.rs`. -/
structure ScanResult where
  url : String
  status_code : Nat
  content_type : Option String
  content_length : Option Nat
  verified : Bool
deriving DecidableEq, Repr

/-- Model of `reqwest::StatusCode::is_success` (200–299). -/
def isSuccessStatus (s : Nat) : Bool := 200 ≤ s && s ≤ 299

/-- Model of `reqwest::StatusCode::is_redirection` (300–399). -/
def isRedirectionStatus (s : Nat) : Bool := 300 ≤ s && s ≤ 399

/-- The HEAD request `make_request` issues first: fixed 3-second timeout. -/
def headReq (h : Headers) (url : String) : HttpRequest :=
  ⟨Method.head, url, h, 3⟩

/-- The single redirect-following GET request of `make_request`: same headers
and the same fixed 3-second timeout. -/
def getRedirectReq (h : Headers) (loc : String) : HttpRequest :=
  ⟨Method.get, loc, h, 3⟩

/-- Embedding of `HttpClient::make_request`.  Returns the classification
(every Rust path returns `Ok`, hence only `.ok` values appear) together with
the list of requests actually issued.  The Rust content-type check
(`is_valid_backup_content_type`) and the 1 GB size check only emit log lines
and never change the outcome, so they have no effect here either. -/
def make_request (net : Net) (h : Headers) (url : String)
    (verify_content : Bool) : Except NetErr (Option ScanResult) × List HttpRequest :=
  let req1 := headReq h url
  match net req1 with
  | ReqOutcome.timeout => (Except.ok none, [req1])
  | ReqOutcome.transErr => (Except.ok none, [req1])
  | ReqOutcome.ok resp =>
    if resp.status = 200 then
      if !is_backup_file_extension url then (Except.ok none, [req1])
      else
        let small : Bool := match resp.contentLength with
          | some size => size < 100
          | none => false
        if small then (Except.ok none, [req1])
        else
          (Except.ok (some { url := url, status_code := resp.status,
                             content_type := resp.contentType,
                             content_length := resp.contentLength,
                             verified := verify_content }), [req1])
    else if resp.status = 403 then
      if !is_backup_file_extension url then (Except.ok none, [req1])
      else
        (Except.ok (some { url := url, status_code := resp.status,
                           content_type := resp.contentType,
                           content_length := resp.contentLength,
                           verified := false }), [req1])
    else if isRedirectionStatus resp.status then
      if !is_backup_file_extension url then (Except.ok none, [req1])
      else
        match resp.location with
        | none => (Except.ok none, [req1])
        | some loc =>
          let req2 := getRedirectReq h loc
          match net req2 with
          | ReqOutcome.ok redirect_resp =>
            if isSuccessStatus redirect_resp.status then
              (Except.ok (some { url := url,
                                 status_code := redirect_resp.status,
                                 content_type := redirect_resp.contentType,
                                 content_length := redirect_resp.contentLength,
                                 verified := false }), [req1, req2])
            else (Except.ok none, [req1, req2])
          | _ => (Except.ok none, [req1, req2])
    else (Except.ok none, [req1])

/-- Embedding of `HttpClient::check_url`: one attempt of `make_request`
under an outer `min(timeout, 5)`-second timeout whose expiry (an input of
the embedding) yields `Ok(None)`. -/
def check_url (net : Net) (h : Headers) (timeout_secs : Nat)
    (outerTimedOut : Bool) (url : String) (verify_content : Bool) :
    Except NetErr (Option ScanResult) :=
  let _short_timeout := min timeout_secs 5
  if outerTimedOut then Except.ok none
  else (make_request net h url verify_content).1

/-- Embedding of `HttpClient::check_directory`: a GET with the configured
timeout; timeout expiry yields `Ok(None)`, but a transport error is
propagated by the source's `result?`. -/
def check_directory (net : Net) (h : Headers) (timeout_secs : Nat)
    (url : String) : Except NetErr (Option Nat) :=
  match net ⟨Method.get, url, h, timeout_secs⟩ with
  | ReqOutcome.timeout => Except.ok none
  | ReqOutcome.transErr => Except.error NetErr.http
  | ReqOutcome.ok resp => Except.ok (some resp.status)

/-! ## Target-to-URL generation (`src/utils.rs`) -/

/-- Embedding of `generate_simple_backup_urls`, the fallback used when the
pattern generator fails to parse the target. -/
def generate_simple_backup_urls (target : String) (patterns : List String) :
    List String :=
  match parseSchemeHost target with
  | none => []
  | some (scheme, host) =>
    let base_url := scheme ++ "://" ++ host
    patterns.map (fun pat => base_url ++ "/" ++ pat) ++
    (["backup", "bak", "old", "archive", "db", "data"].flatMap fun dir =>
      patterns.map fun pat => base_url ++ "/" ++ dir ++ "/" ++ pat)

/-- Embedding of `generate_backup_urls` from `src/utils.rs`: loaded patterns
starting with `.` become full paths, every other pattern becomes a prefix of
`PatternGenerator::new`, then `generate_urls` runs, with the simplified
generator as fallback on parse failure. -/
def generate_backup_urls (target : String) (patterns : List String) :
    List String :=
  let g := patterns.foldl
    (fun (g : PatternGenerator) pat =>
      if strStartsWith pat "." then { g with full_paths := g.full_paths ++ [pat] }
      else { g with prefixes := g.prefixes ++ [pat] })
    PatternGenerator.new
  match g.generate_urls target with
  | some urls => urls
  | none => generate_simple_backup_urls target patterns

/-! ## Scan orchestrator (`src/scanner.rs`) -/

/-- Embedding of `Scanner::extract_pattern_from_url`: the trailing
`/`-separated segment of the URL (Rust `url.split('/').last()`, which always
yields a segment). -/
def extract_pattern_from_url (url : String) : String :=
  (strSplit url '/').getLastD url

/-- In-memory pattern statistics: pattern key to
`(successes, attempts)`, modelling the `HashMap<String,(usize,usize)>`
behind `pattern_success_rates`. -/
abbrev PatternStats := List (String × (Nat × Nat))

/-- Lookup in the statistics map. -/
def statsLookup (stats : PatternStats) (key : String) : Option (Nat × Nat) :=
  (stats.find? fun e => e.1 = key).map (·.2)

/-- The score `sort_urls_by_success_rate` computes for one URL: the empirical
success rate `successes / attempts` for a recorded pattern key with positive
attempts, `0` for a recorded key without attempts, and the exploration
constant `0.1` for an unseen key.  The `f64` arithmetic of the source is
modelled exactly by rationals. -/
def scoreOf (stats : PatternStats) (url : String) : ℚ :=
  match statsLookup stats (extract_pattern_from_url url) with
  | some (successes, attempts) =>
    if attempts > 0 then (successes : ℚ) / (attempts : ℚ) else 0
  | none => 1 / 10

/-- Comparator of the success-rate sort: the Rust comparator
`|(_, a), (_, b)| b.partial_cmp(a)` keeps `x` before `y` whenever
`score y ≤ score x`. -/
def scoreLe (a b : String × ℚ) : Bool := decide (b.2 ≤ a.2)

/-- Embedding of `Scanner::sort_urls_by_success_rate`: identity on empty
history, otherwise a stable descending sort by score (Rust's `sort_by` is a
stable merge sort). -/
def sort_urls_by_success_rate (stats : PatternStats) (urls : List String) :
    List String :=
  if stats.isEmpty then urls
  else
    let url_scores := urls.map fun url => (url, scoreOf stats url)
    (url_scores.mergeSort scoreLe).map (·.1)

/-- Embedding of `Scanner::update_pattern_success_rate`: a discovery bumps
both counters of the URL's pattern key, anything else only the attempt
counter; an absent key starts from `(0, 0)`. -/
def update_pattern_success_rate (stats : PatternStats) (url : String)
    (success : Bool) : PatternStats :=
  let key := extract_pattern_from_url url
  match statsLookup stats key with
  | some _ =>
    stats.map fun e =>
      if e.1 = key then
        (e.1, ((if success then e.2.1 + 1 else e.2.1), e.2.2 + 1))
      else e
  | none => stats ++ [(key, ((if success then 1 else 0), 1))]

/-- Phase 1 of `Scanner::scan_urls`: the first `min(total, 200)` URLs of the
sorted candidate list (the source comments call them the root URLs on the
assumption that at most 200 root candidates exist and come first). -/
def phase1 (urls : List String) : List String :=
  urls.take (min urls.length 200)

/-- Phase 2 of `Scanner::scan_urls`: everything after the first
`min(total, 200)` URLs, dispatched after the 500 ms cooldown. -/
def phase2 (urls : List String) : List String :=
  urls.drop (min urls.length 200)

/-! ## Incremental persistence (`Scanner::save_result_to_json` and the
discovery branch of `Scanner::scan_url_batch`) -/

/-- Contents of the two files the scanner writes: the `.part` sidecar and
the configured output file.  A file's contents are the list of records its
JSON array holds; `none` means the file does not exist yet. -/
structure FileState where
  part : Option (List ScanResult)
  out : Option (List ScanResult)
deriving DecidableEq

/-- Embedding of `Scanner::save_result_to_json`: the serialized contents are
a single-element array, and `File::create` truncates whatever the file held
before. -/
def save_result_to_json (result : ScanResult) : List ScanResult :=
  [result]

/-- The persistence step of `Scanner::scan_url_batch` for one discovery:
write the single-record array to the `.part` sidecar, then `fs::copy` the
sidecar over the output file.  The previous file state is discarded because
`File::create` truncates. -/
def persistDiscovery (_fs : FileState) (result : ScanResult) : FileState :=
  let contents := save_result_to_json result
  { part := some contents, out := some contents }

/-- Persist a sequence of discoveries in order. -/
def persistAll (fs : FileState) (results : List ScanResult) : FileState :=
  results.foldl persistDiscovery fs

/-! ## Bounded concurrency (`Scanner::scan_urls` / `scan_url_batch`)

The `tokio::sync::Semaphore` of capacity `min(threads, 5)` is modelled as a
transition system.  Each spawned probe task is `pending` until it acquires a
permit, `running` (request in flight) while it holds the permit — the task
body acquires the permit before calling `check_url` — and `finished` once
the permit is dropped. -/

/-- Phase of one spawned probe task. -/
inductive TaskPhase where
  | pending
  | running
  | finished
deriving DecidableEq, Repr

/-- Worker-pool state: the configured thread count, the semaphore's
available permits, and all spawned tasks. -/
structure PoolState where
  threads : Nat
  available : Nat
  tasks : List TaskPhase
deriving DecidableEq, Repr

/-- Number of in-flight probes: tasks currently holding a permit. -/
def PoolState.inFlight (s : PoolState) : Nat :=
  s.tasks.countP fun t => t = TaskPhase.running

/-- Initial state of `scan_urls`: the semaphore is created with
`min(threads, 5)` permits and every task is pending. -/
def initPool (threads : Nat) (taskCount : Nat) : PoolState :=
  ⟨threads, min threads 5, List.replicate taskCount TaskPhase.pending⟩

/-- One scheduler step: a pending task acquires a permit (only possible when
one is available) and issues its request, or a running task completes and
releases its permit. -/
inductive PoolStep : PoolState → PoolState → Prop where
  | acquire (s : PoolState) (i : Nat) (hi : i < s.tasks.length)
      (hp : s.tasks.get ⟨i, hi⟩ = TaskPhase.pending)
      (hav : 0 < s.available) :
      PoolStep s ⟨s.threads, s.available - 1, s.tasks.set i TaskPhase.running⟩
  | release (s : PoolState) (i : Nat) (hi : i < s.tasks.length)
      (hp : s.tasks.get ⟨i, hi⟩ = TaskPhase.running) :
      PoolStep s ⟨s.threads, s.available + 1, s.tasks.set i TaskPhase.finished⟩

/-- States reachable from the start of a scan. -/
inductive PoolReachable (threads taskCount : Nat) : PoolState → Prop where
  | init : PoolReachable threads taskCount (initPool threads taskCount)
  | step {s s' : PoolState} (h : PoolReachable threads taskCount s)
      (hs : PoolStep s s') : PoolReachable threads taskCount s'

/-! ## Display classification and concrete network oracles -/

/-- The discovery-display classification of `Scanner::scan_url_batch`
(the `match result.status_code` on the discovery path). -/
inductive DisplayTag where
  | confirmed200
  | restricted403
  | redirectBackup
  | possible
deriving DecidableEq, Repr

/-- Embedding of the `match result.status_code` display branch of
`Scanner::scan_url_batch`. -/
def displayTag (status_code : Nat) : DisplayTag :=
  if status_code = 200 then DisplayTag.confirmed200
  else if status_code = 403 then DisplayTag.restricted403
  else if status_code = 301 ∨ status_code = 302 ∨ status_code = 307 ∨
    status_code = 308 then DisplayTag.redirectBackup
  else DisplayTag.possible

/-- A network oracle answering every request with 200 and Content-Length 50. -/
def netSmall : Net := fun _ => ReqOutcome.ok ⟨200, none, some 50, none⟩

/-- A network oracle answering every request with 200 and Content-Length 5000. -/
def netBig : Net := fun _ => ReqOutcome.ok ⟨200, none, some 5000, none⟩

/-- A network oracle whose HEAD answers 302 with a Location header and whose
GET (the redirect follow-up) answers 200. -/
def netRedirect : Net := fun req =>
  match req.method with
  | Method.head =>
    ReqOutcome.ok ⟨302, none, none, some "http://example.com/real.zip"⟩
  | Method.get =>
    ReqOutcome.ok ⟨200, some "application/zip", some 4096, none⟩

/-- A network oracle on which every request fails with a transport error. -/
def netAllTransErr : Net := fun _ => ReqOutcome.transErr

/-- A network oracle on which every request times out. -/
def netAllTimeout : Net := fun _ => ReqOutcome.timeout

/-- Oracle for the `c10_no_redirect_status` witness: HEAD answers 301 with a
Location header, the follow-up GET answers 200. -/
def netRedirect2 : Net := fun req =>
  match req.method with
  | Method.head =>
    ReqOutcome.ok ⟨301, none, none, some "http://example.com/moved.rar"⟩
  | Method.get => ReqOutcome.ok ⟨200, none, some 2048, none⟩

/-! ## Theorems -/

theorem mem_dedupSeen {a : String} : ∀ {l seen : List String},
    a ∈ dedupSeen seen l ↔ a ∈ l ∧ a ∉ seen := by
  intro l
  induction l with
  | nil => intro seen; simp [dedupSeen]
  | cons x xs ih =>
    intro seen
    rw [dedupSeen]
    by_cases hx : x ∈ seen
    · rw [if_pos hx, ih]
      constructor
      · rintro ⟨h1, h2⟩; exact ⟨List.mem_cons_of_mem _ h1, h2⟩
      · rintro ⟨h1, h2⟩
        rcases List.mem_cons.mp h1 with rfl | h1
        · exact absurd hx h2
        · exact ⟨h1, h2⟩
    · rw [if_neg hx]
      constructor
      · intro h
        rcases List.mem_cons.mp h with rfl | h
        · exact ⟨List.mem_cons_self _ _, hx⟩
        · obtain ⟨h1, h2⟩ := ih.mp h
          exact ⟨List.mem_cons_of_mem _ h1, fun hs => h2 (List.mem_cons_of_mem _ hs)⟩
      · rintro ⟨h1, h2⟩
        rcases List.mem_cons.mp h1 with rfl | h1
        · exact List.mem_cons_self _ _
        · by_cases hax : a = x
          · exact hax ▸ List.mem_cons_self _ _
          · exact List.mem_cons_of_mem _
              (ih.mpr ⟨h1, fun hs => (List.mem_cons.mp hs).elim hax h2⟩)

theorem mem_dedupKeepFirst {a : String} {l : List String} :
    a ∈ dedupKeepFirst l ↔ a ∈ l := by
  rw [dedupKeepFirst, mem_dedupSeen]; simp

theorem nodup_dedupSeen : ∀ (l seen : List String), (dedupSeen seen l).Nodup := by
  intro l
  induction l with
  | nil => intro seen; simp [dedupSeen]
  | cons x xs ih =>
    intro seen
    rw [dedupSeen]
    by_cases hx : x ∈ seen
    · simpa [hx] using ih seen
    · simp only [if_neg hx]
      refine List.nodup_cons.mpr ⟨?_, ih (x :: seen)⟩
      rw [mem_dedupSeen]
      simp

theorem nodup_dedupKeepFirst (l : List String) : (dedupKeepFirst l).Nodup :=
  nodup_dedupSeen l []

theorem length_dedupSeen_le : ∀ (l seen : List String),
    (dedupSeen seen l).length ≤ l.length := by
  intro l
  induction l with
  | nil => intro seen; simp [dedupSeen]
  | cons x xs ih =>
    intro seen
    rw [dedupSeen]
    by_cases hx : x ∈ seen
    · simp only [if_pos hx, List.length_cons]
      exact Nat.le_succ_of_le (ih seen)
    · simp only [if_neg hx, List.length_cons]
      exact Nat.succ_le_succ (ih (x :: seen))

theorem length_dedupKeepFirst_le (l : List String) :
    (dedupKeepFirst l).length ≤ l.length :=
  length_dedupSeen_le l []

/-- C7, counterexample.  The claim's rule demands the second-to-last label
whenever the compound-TLD condition (second-to-last label of at most three
characters and at least four labels) fails; on `"example.co.uk"` (three
labels, second-to-last label `"co"` of two characters) that rule yields
`"co"` (as `extract_domain_spec`, the claim's rule verbatim, confirms), but
the code falls through both inner branches and returns the whole host. -/
theorem extract_domain_counterexample :
    extract_domain "example.co.uk" = "example.co.uk" ∧
    extract_domain_spec "example.co.uk" = "co" ∧
    extract_domain "example.co.uk" ≠ extract_domain_spec "example.co.uk" :=
  ⟨by decide, by decide, by decide⟩

/-- C7 (amended): domain extraction maps a host whose characters are all
digits or dots (in particular a literal IPv4 address) to itself; otherwise,
splitting on `'.'`, it yields the third-from-last label when the
second-to-last label has at most 3 characters and there are at least 4
labels; the whole host when the second-to-last label has at most 3
characters and there are exactly 3 labels; the second-to-last label when
there are at least 2 labels and the compound-TLD test fails; and the whole
host for fewer than 2 labels.  The claim's concrete examples
`extract_domain "www.example.co.uk" = "example"` and
`extract_domain "192.168.1.1" = "192.168.1.1"` hold. -/
theorem extract_domain_characterization :
    (∀ host : String,
       host.toList.all (fun c => c.isDigit || c = '.') = true →
       extract_domain host = host) ∧
    (∀ host : String,
       host.toList.all (fun c => c.isDigit || c = '.') = false →
       (((strSplit host '.').getD ((strSplit host '.').length - 2) "").length ≤ 3 →
        4 ≤ (strSplit host '.').length →
        extract_domain host =
          (strSplit host '.').getD ((strSplit host '.').length - 3) "") ∧
       (((strSplit host '.').getD ((strSplit host '.').length - 2) "").length ≤ 3 →
        (strSplit host '.').length = 3 →
        extract_domain host = host) ∧
       (2 ≤ (strSplit host '.').length →
        ¬(2 < (strSplit host '.').length ∧
          ((strSplit host '.').getD ((strSplit host '.').length - 2) "").length ≤ 3) →
        extract_domain host =
          (strSplit host '.').getD ((strSplit host '.').length - 2) "") ∧
       ((strSplit host '.').length < 2 → extract_domain host = host)) ∧
    extract_domain "www.example.co.uk" = "example" ∧
    extract_domain "192.168.1.1" = "192.168.1.1" := by
  refine ⟨?_, ?_, by decide, by decide⟩
  · intro host h
    rw [extract_domain, if_pos h]
  · intro host h
    rw [extract_domain]
    rw [if_neg (by rw [h]; exact Bool.false_ne_true)]
    refine ⟨?_, ?_, ?_, ?_⟩
    · intro hshort hlen
      rw [if_pos (by omega), if_pos (by omega), if_pos (by omega)]
    · intro hshort hlen
      rw [if_pos (by omega), if_pos (by omega), if_neg (by omega)]
    · intro hlen hneg
      rw [if_pos (by omega), if_neg hneg]
    · intro hlen
      rw [if_neg (by omega)]

/-- Witness for `extract_domain_characterization` at concrete hosts:
`"a.bb.cc.dd.ee"` is not digits-and-dots, has five labels with
second-to-last label `"dd"` of two characters, and extraction yields the
third-from-last label `"cc"`; `"7.3.5.9"` is all digits-and-dots and maps to
itself. -/
theorem extract_domain_characterization_witness :
    extract_domain "a.bb.cc.dd.ee" = "cc" ∧ extract_domain "7.3.5.9" = "7.3.5.9" := by
  constructor
  · have h := ((extract_domain_characterization.2.1 "a.bb.cc.dd.ee" (by decide)).1
      (by decide) (by decide))
    simpa using h
  · exact extract_domain_characterization.1 "7.3.5.9" (by decide)

theorem scoreLe_trans (a b c : String × ℚ) (h1 : scoreLe a b) (h2 : scoreLe b c) :
    scoreLe a c := by
  simp only [scoreLe, decide_eq_true_eq] at h1 h2 ⊢
  exact le_trans h2 h1

theorem scoreLe_total (a b : String × ℚ) : scoreLe a b || scoreLe b a := by
  simp only [scoreLe, Bool.or_eq_true, decide_eq_true_eq]
  exact le_total b.2 a.2

theorem sort_urls_empty_stats (urls : List String) :
    sort_urls_by_success_rate [] urls = urls := by
  simp [sort_urls_by_success_rate]

theorem sort_urls_perm (stats : PatternStats) (urls : List String) :
    List.Perm (sort_urls_by_success_rate stats urls) urls := by
  rw [sort_urls_by_success_rate]
  by_cases h : stats.isEmpty
  · simp [h]
  · simp only [h, if_false, Bool.false_eq_true]
    have hp := (List.mergeSort_perm
      (urls.map fun url => (url, scoreOf stats url)) scoreLe).map (·.1)
    have h2 : (urls.map fun url => (url, scoreOf stats url)).map (·.1) = urls := by
      rw [List.map_map]
      exact List.map_id' urls
    rw [h2] at hp
    exact hp

theorem scored_snd_eq {stats : PatternStats} {urls : List String}
    {p : String × ℚ}
    (hp : p ∈ (urls.map fun url => (url, scoreOf stats url)).mergeSort scoreLe) :
    p.2 = scoreOf stats p.1 := by
  rw [List.mem_mergeSort] at hp
  obtain ⟨url, _, rfl⟩ := List.mem_map.mp hp
  rfl

theorem sort_urls_sorted (stats : PatternStats) (urls : List String) :
    (sort_urls_by_success_rate stats urls).Pairwise
      (fun u v => scoreOf stats v ≤ scoreOf stats u) := by
  rw [sort_urls_by_success_rate]
  by_cases h : stats.isEmpty
  · simp only [h, if_true]
    have hstats : stats = [] := List.isEmpty_iff.mp h
    subst hstats
    have hsc : ∀ w : String, scoreOf [] w = 1 / 10 := fun w => rfl
    exact List.pairwise_iff_getElem.mpr fun i j hi hj hij => by
      rw [hsc, hsc]
  · simp only [h, if_false, Bool.false_eq_true]
    rw [List.pairwise_map]
    have hs := List.sorted_mergeSort scoreLe_trans scoreLe_total
      (urls.map fun url => (url, scoreOf stats url))
    refine hs.imp_of_mem ?_
    intro a b ha hb hab
    have h2a := scored_snd_eq ha
    have h2b := scored_snd_eq hb
    simp only [scoreLe, decide_eq_true_eq] at hab
    rw [← h2a, ← h2b]
    exact hab

theorem sort_urls_stable (stats : PatternStats) (urls : List String)
    (u v : String) (hsub : List.Sublist [u, v] urls)
    (hle : scoreOf stats v ≤ scoreOf stats u) :
    List.Sublist [u, v] (sort_urls_by_success_rate stats urls) := by
  rw [sort_urls_by_success_rate]
  by_cases h : stats.isEmpty
  · simpa [h] using hsub
  · simp only [h, if_false, Bool.false_eq_true]
    have hm : List.Sublist [(u, scoreOf stats u), (v, scoreOf stats v)]
        (urls.map fun url => (url, scoreOf stats url)) := by
      simpa using hsub.map fun url => (url, scoreOf stats url)
    have hp := List.pair_sublist_mergeSort scoreLe_trans scoreLe_total
      (by simpa [scoreLe] using hle) hm
    simpa using hp.map (·.1)

/-- C5: the success-rate sort scores a recorded pattern key with positive
attempts as `successes / attempts` and an unseen key as the exploration
constant `0.1`; it permutes the input, is descending by score, stable (a
pair in input order with non-increasing scores — in particular tied
scores — stays in that order), is the identity on empty statistics, and
places every candidate whose key has zero successes and positive attempts
(score `0`) strictly after every candidate with an unseen key
(score `0.1`). -/
theorem c5_success_rate_sort :
    (∀ urls : List String, sort_urls_by_success_rate [] urls = urls) ∧
    (∀ (stats : PatternStats) (urls : List String),
       List.Perm (sort_urls_by_success_rate stats urls) urls) ∧
    (∀ (stats : PatternStats) (url : String) (s a : Nat),
       statsLookup stats (extract_pattern_from_url url) = some (s, a) →
       0 < a → scoreOf stats url = (s : ℚ) / (a : ℚ)) ∧
    (∀ (stats : PatternStats) (url : String),
       statsLookup stats (extract_pattern_from_url url) = none →
       scoreOf stats url = 1 / 10) ∧
    (∀ (stats : PatternStats) (urls : List String),
       (sort_urls_by_success_rate stats urls).Pairwise
         (fun u v => scoreOf stats v ≤ scoreOf stats u)) ∧
    (∀ (stats : PatternStats) (urls : List String) (u v : String),
       List.Sublist [u, v] urls → scoreOf stats v ≤ scoreOf stats u →
       List.Sublist [u, v] (sort_urls_by_success_rate stats urls)) ∧
    (∀ (stats : PatternStats) (urls : List String) (u v : String) (a : Nat),
       statsLookup stats (extract_pattern_from_url u) = some (0, a) → 0 < a →
       statsLookup stats (extract_pattern_from_url v) = none →
       ∀ (i j : Nat) (hi : i < (sort_urls_by_success_rate stats urls).length)
         (hj : j < (sort_urls_by_success_rate stats urls).length),
         (sort_urls_by_success_rate stats urls)[i] = u →
         (sort_urls_by_success_rate stats urls)[j] = v → j < i) := by
  refine ⟨sort_urls_empty_stats, sort_urls_perm, ?_, ?_, sort_urls_sorted,
    sort_urls_stable, ?_⟩
  · intro stats url s a h1 h2
    simp [scoreOf, h1, h2]
  · intro stats url h1
    simp [scoreOf, h1]
  · intro stats urls u v a h1 h2 h3 i j hi hj hu hv
    have hscu : scoreOf stats u = 0 := by simp [scoreOf, h1, h2]
    have hscv : scoreOf stats v = 1 / 10 := by simp [scoreOf, h3]
    rcases Nat.lt_trichotomy i j with hij | hij | hij
    · exfalso
      have hp := List.pairwise_iff_getElem.mp (sort_urls_sorted stats urls)
        i j hi hj hij
      rw [hu, hv, hscu, hscv] at hp
      norm_num at hp
    · exfalso
      subst hij
      rw [hu] at hv
      subst hv
      rw [h1] at h3
      exact Option.noConfusion h3
    · exact hij

/-- Witness for `c5_success_rate_sort`: with the single recorded key
`"backup.zip"` at 0 successes and 3 attempts, the scoring conjuncts give
score `0/3` for `http://x/backup.zip` and `0.1` for the unseen
`http://x/fresh.zip`, and the ordering conjunct places the unseen key's URL
(position 0 of the sorted output) strictly before the zero-success URL
(position 1). -/
theorem c5_success_rate_sort_witness :
    scoreOf [("backup.zip", (0, 3))] "http://x/backup.zip" = (0 : ℚ) / (3 : ℚ) ∧
    scoreOf [("backup.zip", (0, 3))] "http://x/fresh.zip" = 1 / 10 ∧
    (0 : Nat) < 1 := by
  have hout : sort_urls_by_success_rate [("backup.zip", (0, 3))]
      ["http://x/backup.zip", "http://x/fresh.zip"] =
      ["http://x/fresh.zip", "http://x/backup.zip"] := by
    rw [sort_urls_by_success_rate]
    simp [List.mergeSort, List.splitInTwo, List.merge, scoreOf, statsLookup,
          extract_pattern_from_url, strSplit, splitChar, scoreLe]
  have hi : 1 < (sort_urls_by_success_rate [("backup.zip", (0, 3))]
      ["http://x/backup.zip", "http://x/fresh.zip"]).length := by
    rw [hout]; decide
  have hj : 0 < (sort_urls_by_success_rate [("backup.zip", (0, 3))]
      ["http://x/backup.zip", "http://x/fresh.zip"]).length := by
    rw [hout]; decide
  refine ⟨c5_success_rate_sort.2.2.1 [("backup.zip", (0, 3))]
      "http://x/backup.zip" 0 3 (by decide) (by decide),
    c5_success_rate_sort.2.2.2.1 [("backup.zip", (0, 3))]
      "http://x/fresh.zip" (by decide),
    c5_success_rate_sort.2.2.2.2.2.2 [("backup.zip", (0, 3))]
      ["http://x/backup.zip", "http://x/fresh.zip"]
      "http://x/backup.zip" "http://x/fresh.zip" 3 (by decide) (by decide)
      (by decide) 1 0 hi hj (by simp [hout]) (by simp [hout])⟩

theorem dedupKeepFirst_cons (x : String) (xs : List String) :
    dedupKeepFirst (x :: xs) = x :: dedupSeen [x] xs := by
  simp [dedupKeepFirst, dedupSeen]

theorem mem_take_append {a : String} (l r : List String) (n : Nat)
    (h : l.length < n) : a ∈ (l ++ a :: r).take n := by
  rw [List.take_append_eq_append_take]
  apply List.mem_append_right
  obtain ⟨k, hk⟩ : ∃ k, n - l.length = k + 1 := ⟨n - l.length - 1, by omega⟩
  rw [hk, List.take_succ_cons]
  exact List.mem_cons_self _ _

set_option maxRecDepth 10000 in
/-- C1, counterexample.  `scan_urls` splits the sorted candidate list at the
fixed index `min(total, 200)`, not at the generator's tier boundary.  For
target `http://example.com` with no custom patterns (and empty statistics,
so the sort is the identity) the root tier has at most 120 candidates, hence
phase 1 — the first `min(total, 200)` URLs — contains the directory-tier
candidate `http://example.com/backup/example.rar`, which is not in the
generator's root-tier set.  So the phase-1 dispatch set is not the root-tier
set. -/
theorem c1_counterexample :
    "http://example.com/backup/example.rar" ∈
      phase1 (sort_urls_by_success_rate []
        (generate_backup_urls "http://example.com" [])) ∧
    "http://example.com/backup/example.rar" ∉
      PatternGenerator.new.rootUrls "http://example.com" "example" := by
  constructor
  · rw [sort_urls_empty_stats]
    have hgen : generate_backup_urls "http://example.com" [] =
        PatternGenerator.new.rootUrls "http://example.com" "example" ++
        PatternGenerator.new.dirUrls "http://example.com" "example" := rfl
    rw [hgen]
    obtain ⟨t, ht⟩ : ∃ t,
        PatternGenerator.new.dirCandidates "http://example.com" "example" =
        "http://example.com/backup/example.rar" :: t := ⟨_, rfl⟩
    have hd : PatternGenerator.new.dirUrls "http://example.com" "example" =
        "http://example.com/backup/example.rar" ::
          dedupSeen ["http://example.com/backup/example.rar"] t := by
      rw [PatternGenerator.dirUrls, ht, dedupKeepFirst_cons]
    rw [phase1, hd]
    apply mem_take_append
    have h120 : (PatternGenerator.new.rootCandidates "http://example.com"
        "example").length = 120 := by decide
    have hle := length_dedupKeepFirst_le
      (PatternGenerator.new.rootCandidates "http://example.com" "example")
    rw [h120] at hle
    rw [PatternGenerator.rootUrls] at *
    simp only [List.length_append, List.length_cons]
    omega
  · rw [PatternGenerator.rootUrls]
    rw [mem_dedupKeepFirst]
    decide

/-- C1 (amended): for every statistics state and candidate list, phase 1
dispatches the first `min(total, 200)` URLs of the success-rate-sorted
candidate list and phase 2 (after the 500 ms cooldown) the remainder; the
two phases partition the sorted list, which is a permutation of the
generator's output.  The split is positional at the fixed 200-URL cutoff
(the source's assumption that root candidates come first and number at most
200), not the root/directory tier partition, and success-rate reordering
moves candidates across the cutoff. -/
theorem c1_phase_split (stats : PatternStats) (urls : List String) :
    phase1 (sort_urls_by_success_rate stats urls) ++
      phase2 (sort_urls_by_success_rate stats urls) =
      sort_urls_by_success_rate stats urls ∧
    (phase1 (sort_urls_by_success_rate stats urls)).length =
      min (sort_urls_by_success_rate stats urls).length 200 ∧
    List.Perm (sort_urls_by_success_rate stats urls) urls := by
  refine ⟨List.take_append_drop _ _, ?_, sort_urls_perm stats urls⟩
  rw [phase1, List.length_take]
  omega

set_option maxRecDepth 10000 in
/-- C4, counterexample.  A configured pattern containing `/` (loaded as a
prefix that already contains a dot, hence used verbatim) can coincide with a
directory-tier candidate: with pattern `backup/backup.zip` on target
`http://example.com`, the root tier contains
`http://example.com/backup/backup.zip` and the directory tier generates the
same URL from directory `backup`, generic basename `backup` and suffix
`.zip`, so the generator's concatenated output contains a duplicate and the
tiers are not disjoint. -/
theorem c4_counterexample :
    ¬ (generate_backup_urls "http://example.com" ["backup/backup.zip"]).Nodup := by
  have hgen : generate_backup_urls "http://example.com" ["backup/backup.zip"] =
      ({ PatternGenerator.new with prefixes := ["backup/backup.zip"] }
        : PatternGenerator).rootUrls "http://example.com" "example" ++
      ({ PatternGenerator.new with prefixes := ["backup/backup.zip"] }
        : PatternGenerator).dirUrls "http://example.com" "example" := rfl
  intro hnodup
  rw [hgen, List.nodup_append] at hnodup
  have hmem1 : "http://example.com/backup/backup.zip" ∈
      ({ PatternGenerator.new with prefixes := ["backup/backup.zip"] }
        : PatternGenerator).rootUrls "http://example.com" "example" := by
    rw [PatternGenerator.rootUrls, mem_dedupKeepFirst]
    decide
  have hmem2 : "http://example.com/backup/backup.zip" ∈
      ({ PatternGenerator.new with prefixes := ["backup/backup.zip"] }
        : PatternGenerator).dirUrls "http://example.com" "example" := by
    rw [PatternGenerator.dirUrls, mem_dedupKeepFirst]
    decide
  exact hnodup.2.2 hmem1 hmem2

/-- C4 (amended): each tier of the generator's output is duplicate-free for
every configuration and target (set semantics per tier), and the
concatenated output is duplicate-free exactly when the two tiers are
disjoint — which a configured pattern containing `/` can violate. -/
theorem c4_tiers_nodup (g : PatternGenerator) (base_url domain : String) :
    (g.rootUrls base_url domain).Nodup ∧
    (g.dirUrls base_url domain).Nodup ∧
    ((g.rootUrls base_url domain ++ g.dirUrls base_url domain).Nodup ↔
      List.Disjoint (g.rootUrls base_url domain) (g.dirUrls base_url domain)) := by
  refine ⟨nodup_dedupKeepFirst _, nodup_dedupKeepFirst _, ?_⟩
  rw [List.nodup_append]
  constructor
  · exact fun h => h.2.2
  · exact fun h => ⟨nodup_dedupKeepFirst _, nodup_dedupKeepFirst _, h⟩

/-- C9, counterexample.  `save_result_to_json` serializes a single-element
array and `File::create` truncates the sidecar, so after two discoveries the
sidecar holds only the second record: the first discovery is not contained
in it, contradicting the claim that after k discoveries the sidecar contains
all k records. -/
theorem c9_counterexample :
    (persistAll ⟨none, none⟩
        [⟨"http://example.com/a.zip", 200, none, some 500, false⟩,
         ⟨"http://example.com/b.zip", 200, none, some 900, false⟩]).part =
      some [⟨"http://example.com/b.zip", 200, none, some 900, false⟩] ∧
    (⟨"http://example.com/a.zip", 200, none, some 500, false⟩ : ScanResult) ∉
      [(⟨"http://example.com/b.zip", 200, none, some 900, false⟩ : ScanResult)] :=
  ⟨rfl, by decide⟩

/-- C9 (amended): each discovery is immediately serialized as a
single-record JSON array written over the sidecar (truncating its previous
contents), and the sidecar is then copied over the final output path; hence
after any non-empty sequence of discoveries both files hold exactly the most
recent record — only the latest discovery survives a global abort. -/
theorem c9_persist_last (fs : FileState) (rs : List ScanResult)
    (r : ScanResult) :
    (persistAll fs (rs ++ [r])).part = some [r] ∧
    (persistAll fs (rs ++ [r])).out = some [r] := by
  rw [persistAll, List.foldl_append]
  exact ⟨rfl, rfl⟩

/-! ## Probe-classification theorems -/

/-- C2: for a 200 response, a URL outside the backup-file catalog yields no
discovery; a catalog URL with a Content-Length below 100 bytes yields no
discovery; a catalog URL with Content-Length at least 100 bytes, or with no
Content-Length, yields a discovery whose `verified` field equals the
caller's verify-content flag. -/
theorem c2_size_filter :
    ∀ (net : Net) (h : Headers) (url : String) (verify : Bool)
      (resp : HttpResponse),
      net (headReq h url) = ReqOutcome.ok resp → resp.status = 200 →
      ((is_backup_file_extension url = false →
         (make_request net h url verify).1 = Except.ok none) ∧
       (is_backup_file_extension url = true →
         (∀ n, resp.contentLength = some n → n < 100 →
            (make_request net h url verify).1 = Except.ok none) ∧
         (∀ n, resp.contentLength = some n → 100 ≤ n →
            (make_request net h url verify).1 = Except.ok (some
              { url := url, status_code := 200,
                content_type := resp.contentType,
                content_length := resp.contentLength,
                verified := verify })) ∧
         (resp.contentLength = none →
            (make_request net h url verify).1 = Except.ok (some
              { url := url, status_code := 200,
                content_type := resp.contentType,
                content_length := resp.contentLength,
                verified := verify })))) := by
  intro net h url verify resp hnet hst
  simp only [make_request]
  rw [hnet]
  simp only [hst, if_pos rfl]
  constructor
  · intro hext
    simp [hext]
  · intro hext
    refine ⟨?_, ?_, ?_⟩
    · intro n hcl hn
      simp [hext, hcl, hn]
    · intro n hcl hn
      have hnotlt : ¬ n < 100 := Nat.not_lt.mpr hn
      simp [hext, hcl, hnotlt]
    · intro hcl
      simp [hext, hcl]

/-- Witness for `c2_size_filter` at C2's example `data.sql`: a 200
with Content-Length 50 gives no discovery, a 200 with Content-Length 5000
gives a discovery whose `verified` equals the caller's flag (`true` here). -/
theorem c2_size_filter_witness :
    (make_request netSmall [] "http://example.com/data.sql" false).1 =
      Except.ok none ∧
    (make_request netBig [] "http://example.com/data.sql" true).1 =
      Except.ok (some { url := "http://example.com/data.sql",
                        status_code := 200, content_type := none,
                        content_length := some 5000, verified := true }) :=
  ⟨((c2_size_filter netSmall [] "http://example.com/data.sql" false
      ⟨200, none, some 50, none⟩ rfl rfl).2 (by decide)).1 50 rfl (by decide),
   ((c2_size_filter netBig [] "http://example.com/data.sql" true
      ⟨200, none, some 5000, none⟩ rfl rfl).2 (by decide)).2.1 5000 rfl
      (by decide)⟩

theorem redirection_ne_200 {s : Nat} (h : isRedirectionStatus s = true) :
    s ≠ 200 ∧ s ≠ 403 := by
  simp only [isRedirectionStatus, Bool.and_eq_true, decide_eq_true_eq] at h
  omega

theorem make_request_redirect_eval (net : Net) (h : Headers) (url : String)
    (verify : Bool) (resp : HttpResponse) (loc : String)
    (hnet : net (headReq h url) = ReqOutcome.ok resp)
    (hne200 : resp.status ≠ 200) (hne403 : resp.status ≠ 403)
    (hred : isRedirectionStatus resp.status = true)
    (hext : is_backup_file_extension url = true)
    (hloc : resp.location = some loc) :
    make_request net h url verify =
      (match net (getRedirectReq h loc) with
       | ReqOutcome.ok redirect_resp =>
         if isSuccessStatus redirect_resp.status then
           (Except.ok (some { url := url,
                              status_code := redirect_resp.status,
                              content_type := redirect_resp.contentType,
                              content_length := redirect_resp.contentLength,
                              verified := false }),
            [headReq h url, getRedirectReq h loc])
         else (Except.ok none, [headReq h url, getRedirectReq h loc])
       | _ => (Except.ok none, [headReq h url, getRedirectReq h loc])) := by
  simp only [make_request]
  rw [hnet]
  simp [hne200, hne403, hred, hext, hloc]

/-- C6: on a 3xx response, a URL outside the catalog yields no discovery and
no second request; a catalog URL without a Location header yields no
discovery and no second request; a catalog URL with a Location header makes
the client issue exactly one more request — a GET to the Location target
with the same headers and the same 3-second timeout — and the result is a
discovery if and only if that single response arrives and has a success
status, in which case the record is keyed by the original URL with
`verified = false` and the redirect response's status, type and length. -/
theorem c6_redirect_one_hop :
    ∀ (net : Net) (h : Headers) (url : String) (verify : Bool)
      (resp : HttpResponse),
      net (headReq h url) = ReqOutcome.ok resp →
      isRedirectionStatus resp.status = true →
      ((is_backup_file_extension url = false →
         (make_request net h url verify).1 = Except.ok none ∧
         (make_request net h url verify).2 = [headReq h url]) ∧
       (is_backup_file_extension url = true →
         (resp.location = none →
            (make_request net h url verify).1 = Except.ok none ∧
            (make_request net h url verify).2 = [headReq h url]) ∧
         (∀ loc, resp.location = some loc →
            (make_request net h url verify).2 =
              [headReq h url, getRedirectReq h loc] ∧
            (∀ r, (make_request net h url verify).1 = Except.ok (some r) ↔
               (∃ r2, net (getRedirectReq h loc) = ReqOutcome.ok r2 ∧
                  isSuccessStatus r2.status = true ∧
                  r = { url := url, status_code := r2.status,
                        content_type := r2.contentType,
                        content_length := r2.contentLength,
                        verified := false }))))) := by
  intro net h url verify resp hnet hred
  obtain ⟨hne200, hne403⟩ := redirection_ne_200 hred
  constructor
  · intro hext
    constructor <;>
      · simp only [make_request]
        rw [hnet]
        simp [hne200, hne403, hred, hext]
  · intro hext
    constructor
    · intro hloc
      constructor <;>
        · simp only [make_request]
          rw [hnet]
          simp [hne200, hne403, hred, hext, hloc]
    · intro loc hloc
      have heval := make_request_redirect_eval net h url verify resp loc
        hnet hne200 hne403 hred hext hloc
      rw [heval]
      cases hnet2 : net (getRedirectReq h loc) with
      | timeout =>
        refine ⟨rfl, fun r => ?_⟩
        simp [hnet2]
      | transErr =>
        refine ⟨rfl, fun r => ?_⟩
        simp [hnet2]
      | ok r2 =>
        by_cases hsucc : isSuccessStatus r2.status = true
        · simp only [hsucc, if_true]
          refine ⟨trivial, fun r => ?_⟩
          constructor
          · intro hr
            refine ⟨r2, rfl, hsucc, ?_⟩
            have h1 := Except.ok.inj hr
            exact (Option.some.inj h1).symm
          · rintro ⟨r2', hr2', hsucc', rfl⟩
            cases ReqOutcome.ok.inj hr2'
            rfl
        · have hsucc' : isSuccessStatus r2.status = false :=
            Bool.eq_false_iff.mpr hsucc
          simp only [hsucc', Bool.false_eq_true, if_false]
          refine ⟨trivial, fun r => ?_⟩
          constructor
          · intro hr
            exact absurd (Except.ok.inj hr) (by simp)
          · rintro ⟨r2', hr2', hsucc2, rfl⟩
            cases ReqOutcome.ok.inj hr2'
            rw [hsucc2] at hsucc'
            exact absurd hsucc' (by simp)

/-- Witness for `c6_redirect_one_hop`: probing `backup.zip` (a catalog URL)
against `netRedirect` issues exactly the HEAD and one redirect GET with the
same headers and timeout, and yields a discovery keyed by the original URL
with `verified = false` and the redirect target's 200 status. -/
theorem c6_redirect_one_hop_witness :
    (make_request netRedirect [] "http://example.com/backup.zip" false).2 =
      [headReq [] "http://example.com/backup.zip",
       getRedirectReq [] "http://example.com/real.zip"] ∧
    (make_request netRedirect [] "http://example.com/backup.zip" false).1 =
      Except.ok (some { url := "http://example.com/backup.zip",
                        status_code := 200,
                        content_type := some "application/zip",
                        content_length := some 4096,
                        verified := false }) := by
  have hc := (c6_redirect_one_hop netRedirect []
      "http://example.com/backup.zip" false
      ⟨302, none, none, some "http://example.com/real.zip"⟩ rfl
      (by decide)).2 (by decide)
  have h2 := hc.2 "http://example.com/real.zip" rfl
  refine ⟨h2.1, ?_⟩
  exact (h2.2 _).mpr ⟨⟨200, some "application/zip", some 4096, none⟩, rfl,
    by decide, rfl⟩

theorem make_request_ok (net : Net) (h : Headers) (url : String)
    (verify : Bool) : ∃ v, (make_request net h url verify).1 = Except.ok v := by
  simp only [make_request]
  cases net (headReq h url) with
  | timeout => exact ⟨none, rfl⟩
  | transErr => exact ⟨none, rfl⟩
  | ok resp =>
    simp only
    repeat' split
    all_goals exact ⟨_, rfl⟩

/-- C8, counterexample.  A transport error during `check_directory`'s GET is
propagated to the caller as an error by the source's `result?`
(`src/http.rs`, `check_directory`), contradicting the claim that the
directory-status check returns a non-error outcome on DNS/TLS/connect/read
failures. -/
theorem c8_counterexample :
    check_directory netAllTransErr [] 30 "http://example.com/backup/" =
      Except.error NetErr.http := rfl

/-- C8 (amended): `check_url` never returns an error — every per-request
transport failure or timeout resolves to a non-error outcome, and in
particular a transport error or timeout of the underlying HEAD request
yields `Ok(None)`; `check_directory` resolves its timeout to `Ok(None)` but
propagates a transport error to the caller. -/
theorem c8_error_containment :
    (∀ (net : Net) (h : Headers) (t : Nat) (outer : Bool) (url : String)
       (verify : Bool),
       ∃ v, check_url net h t outer url verify = Except.ok v) ∧
    (∀ (net : Net) (h : Headers) (t : Nat) (url : String) (verify : Bool),
       net (headReq h url) = ReqOutcome.transErr ∨
         net (headReq h url) = ReqOutcome.timeout →
       check_url net h t false url verify = Except.ok none) ∧
    (∀ (net : Net) (h : Headers) (t : Nat) (url : String),
       net ⟨Method.get, url, h, t⟩ = ReqOutcome.timeout →
       check_directory net h t url = Except.ok none) ∧
    (∀ (net : Net) (h : Headers) (t : Nat) (url : String),
       net ⟨Method.get, url, h, t⟩ = ReqOutcome.transErr →
       check_directory net h t url = Except.error NetErr.http) := by
  refine ⟨?_, ?_, ?_, ?_⟩
  · intro net h t outer url verify
    rw [check_url]
    cases outer with
    | true => exact ⟨none, rfl⟩
    | false => exact make_request_ok net h url verify
  · intro net h t url verify hfail
    rw [check_url]
    simp only [Bool.false_eq_true, if_false, make_request]
    rcases hfail with hfail | hfail <;> rw [hfail]
  · intro net h t url hto
    rw [check_directory, hto]
  · intro net h t url herr
    rw [check_directory, herr]

/-- Witness for `c8_error_containment` on the all-timeout and all-transport-
error oracles: the per-candidate check yields `Ok(None)` in both cases, the
directory check yields `Ok(None)` on timeout and an error on transport
failure. -/
theorem c8_error_containment_witness :
    check_url netAllTimeout [] 30 false "http://example.com/db.sql" false =
      Except.ok none ∧
    check_url netAllTransErr [] 30 false "http://example.com/db.sql" false =
      Except.ok none ∧
    check_directory netAllTimeout [] 30 "http://example.com/backup/" =
      Except.ok none :=
  ⟨c8_error_containment.2.1 netAllTimeout [] 30 "http://example.com/db.sql"
      false (Or.inr rfl),
   c8_error_containment.2.1 netAllTransErr [] 30 "http://example.com/db.sql"
      false (Or.inl rfl),
   c8_error_containment.2.2.1 netAllTimeout [] 30
      "http://example.com/backup/" rfl⟩

/-- Every discovery record carries status 200, 403, or a 2xx success
status. -/
theorem make_request_status (net : Net) (h : Headers) (url : String)
    (verify : Bool) (r : ScanResult)
    (hr : (make_request net h url verify).1 = Except.ok (some r)) :
    r.status_code = 200 ∨ r.status_code = 403 ∨
      isSuccessStatus r.status_code = true := by
  revert hr
  simp only [make_request]
  cases hnet : net (headReq h url) with
  | timeout => intro hr; exact Option.noConfusion (Except.ok.inj hr)
  | transErr => intro hr; exact Option.noConfusion (Except.ok.inj hr)
  | ok resp =>
    simp only
    repeat' split
    all_goals intro hr
    all_goals try (exact Option.noConfusion (Except.ok.inj hr))
    all_goals have h1 := Option.some.inj (Except.ok.inj hr)
    all_goals subst h1
    · exact Or.inl (by assumption)
    · exact Or.inr (Or.inl (by assumption))
    · exact Or.inr (Or.inr (by assumption))

theorem success_not_redirection {s : Nat} (h : isSuccessStatus s = true) :
    isRedirectionStatus s = false := by
  simp only [isSuccessStatus, Bool.and_eq_true, decide_eq_true_eq] at h
  simp only [isRedirectionStatus, Bool.and_eq_false_iff,
    decide_eq_false_iff_not]
  omega

theorem make_request_redirect_none (net : Net) (h : Headers) (url : String)
    (verify : Bool) (resp : HttpResponse)
    (hnet : net (headReq h url) = ReqOutcome.ok resp)
    (hred : isRedirectionStatus resp.status = true)
    (hside : is_backup_file_extension url = false ∨ resp.location = none) :
    (make_request net h url verify).1 = Except.ok none := by
  obtain ⟨hne200, hne403⟩ := redirection_ne_200 hred
  simp only [make_request]
  rw [hnet]
  rcases hside with hext | hloc
  · simp [hne200, hne403, hred, hext]
  · by_cases hext : is_backup_file_extension url = true
    · simp [hne200, hne403, hred, hext, hloc]
    · simp [hne200, hne403, hred, Bool.eq_false_iff.mpr hext]

/-- C10: a discovery produced from a 3xx primary response carries the
redirect target's success status; no discovery ever carries a 3xx
status code, so the orchestrator's 301/302/307/308 display branch is
unreachable on the discovery path. -/
theorem c10_no_redirect_status :
    ∀ (net : Net) (h : Headers) (url : String) (verify : Bool) (r : ScanResult),
      (make_request net h url verify).1 = Except.ok (some r) →
      (isRedirectionStatus r.status_code = false ∧
       displayTag r.status_code ≠ DisplayTag.redirectBackup ∧
       (∀ resp, net (headReq h url) = ReqOutcome.ok resp →
          isRedirectionStatus resp.status = true →
          ∃ loc r2, resp.location = some loc ∧
            net (getRedirectReq h loc) = ReqOutcome.ok r2 ∧
            isSuccessStatus r2.status = true ∧ r.status_code = r2.status)) := by
  intro net h url verify r hr
  have hstat := make_request_status net h url verify r hr
  have hnot3xx : isRedirectionStatus r.status_code = false := by
    rcases hstat with h1 | h1 | h1
    · simp [isRedirectionStatus, h1]
    · simp [isRedirectionStatus, h1]
    · exact success_not_redirection h1
  refine ⟨hnot3xx, ?_, ?_⟩
  · intro htag
    have : isRedirectionStatus r.status_code = true := by
      rw [displayTag] at htag
      by_cases h200 : r.status_code = 200
      · simp [h200] at htag
      · by_cases h403 : r.status_code = 403
        · simp [h200, h403] at htag
        · by_cases h3xx : r.status_code = 301 ∨ r.status_code = 302 ∨
            r.status_code = 307 ∨ r.status_code = 308
          · simp only [isRedirectionStatus, Bool.and_eq_true,
              decide_eq_true_eq]
            omega
          · simp [h200, h403, h3xx] at htag
    rw [this] at hnot3xx
    exact Bool.noConfusion hnot3xx
  · intro resp hnet hred
    obtain ⟨hne200, hne403⟩ := redirection_ne_200 hred
    cases hloc : resp.location with
    | none =>
      exfalso
      have hc := make_request_redirect_none net h url verify resp hnet hred
        (Or.inr hloc)
      rw [hc] at hr
      exact Option.noConfusion (Except.ok.inj hr)
    | some loc =>
      by_cases hext : is_backup_file_extension url = true
      · have heval := make_request_redirect_eval net h url verify resp loc
          hnet hne200 hne403 hred hext hloc
        rw [heval] at hr
        cases hnet2 : net (getRedirectReq h loc) with
        | timeout => rw [hnet2] at hr; simp at hr
        | transErr => rw [hnet2] at hr; simp at hr
        | ok r2 =>
          rw [hnet2] at hr
          by_cases hsucc : isSuccessStatus r2.status = true
          · refine ⟨loc, r2, by simp [hloc], hnet2, hsucc, ?_⟩
            simp only [hsucc, if_true] at hr
            have h1 := Option.some.inj (Except.ok.inj hr)
            rw [← h1]
          · have hsucc' : isSuccessStatus r2.status = false :=
              Bool.eq_false_iff.mpr hsucc
            simp only [hsucc', Bool.false_eq_true, if_false] at hr
            exact absurd (Except.ok.inj hr) (by simp)
      · exfalso
        have hc := make_request_redirect_none net h url verify resp hnet hred
          (Or.inl (Bool.eq_false_iff.mpr hext))
        rw [hc] at hr
        exact Option.noConfusion (Except.ok.inj hr)

/-- Witness for `c10_no_redirect_status`: probing `backup.rar` against
`netRedirect2` emits a record with the redirect target's status 200 — a
non-3xx status outside the orchestrator's 301/302/307/308 display branch,
equal to the redirect response's status. -/
theorem c10_no_redirect_status_witness :
    isRedirectionStatus 200 = false ∧
    displayTag 200 ≠ DisplayTag.redirectBackup ∧
    (∃ loc r2,
       (⟨301, none, none, some "http://example.com/moved.rar"⟩ :
         HttpResponse).location = some loc ∧
       netRedirect2 (getRedirectReq [] loc) = ReqOutcome.ok r2 ∧
       isSuccessStatus r2.status = true ∧ (200 : Nat) = r2.status) := by
  have hr : (make_request netRedirect2 [] "http://example.com/backup.rar"
      false).1 = Except.ok (some { url := "http://example.com/backup.rar",
                                   status_code := 200, content_type := none,
                                   content_length := some 2048,
                                   verified := false }) := rfl
  have h := c10_no_redirect_status netRedirect2 []
    "http://example.com/backup.rar" false
    { url := "http://example.com/backup.rar", status_code := 200,
      content_type := none, content_length := some 2048,
      verified := false } hr
  exact ⟨h.1, h.2.1,
    h.2.2 ⟨301, none, none, some "http://example.com/moved.rar"⟩ rfl rfl⟩

/-! ## Concurrency-bound theorems -/

theorem countP_set (p : TaskPhase → Bool) : ∀ (l : List TaskPhase) (i : Nat)
    (a : TaskPhase) (hi : i < l.length),
    (l.set i a).countP p + (if p (l.get ⟨i, hi⟩) then 1 else 0) =
      l.countP p + (if p a then 1 else 0) := by
  intro l
  induction l with
  | nil => intro i a hi; simp at hi
  | cons x xs ih =>
    intro i a hi
    cases i with
    | zero =>
      simp only [List.set, List.countP_cons, List.get]
      by_cases hpa : p a <;> by_cases hpx : p x <;> simp [hpa, hpx]
    | succ n =>
      have hn : n < xs.length := by
        simp only [List.length_cons] at hi
        omega
      have hrec := ih n a hn
      simp only [List.set, List.countP_cons, List.get]
      omega

theorem poolInvariant : ∀ {threads taskCount : Nat} {s : PoolState},
    PoolReachable threads taskCount s →
    s.threads = threads ∧ s.available + s.inFlight = min threads 5 := by
  intro threads taskCount s h
  induction h with
  | init =>
    refine ⟨rfl, ?_⟩
    have hz : (List.replicate taskCount TaskPhase.pending).countP
        (fun t => t = TaskPhase.running) = 0 := by
      rw [List.countP_eq_zero]
      intro a ha
      rw [List.eq_of_mem_replicate ha]
      decide
    simp [initPool, PoolState.inFlight, hz]
  | @step s1 s2 h hs ih =>
    cases hs with
    | acquire i hi hp hav =>
      refine ⟨ih.1, ?_⟩
      have hc := countP_set (fun t => t = TaskPhase.running) s1.tasks i
        TaskPhase.running hi
      rw [hp] at hc
      simp at hc
      have ih2 := ih.2
      simp [PoolState.inFlight] at ih2 ⊢
      omega
    | release i hi hp =>
      refine ⟨ih.1, ?_⟩
      have hc := countP_set (fun t => t = TaskPhase.running) s1.tasks i
        TaskPhase.finished hi
      rw [hp] at hc
      simp at hc
      have ih2 := ih.2
      simp [PoolState.inFlight] at ih2 ⊢
      omega

/-- C3: in every state reachable during a scan, the number of in-flight
probes — tasks holding a permit of the semaphore created with
`min(threads, 5)` permits, acquired before the probe request is issued —
is at most `min(threads, 5)`, for every configured thread count and task
count. -/
theorem c3_bounded_concurrency (threads taskCount : Nat) (s : PoolState)
    (h : PoolReachable threads taskCount s) : s.inFlight ≤ min threads 5 := by
  have hinv := (poolInvariant h).2
  omega

/-- Witness for `c3_bounded_concurrency`: with 10 configured threads and 3
spawned tasks, the state after one acquire step (one task running, 4 of the
5 permits left) is reachable and its in-flight count is within
`min(10, 5)`. -/
theorem c3_bounded_concurrency_witness :
    (⟨10, 4, [TaskPhase.running, TaskPhase.pending, TaskPhase.pending]⟩ :
      PoolState).inFlight ≤ min 10 5 := by
  have h0 : PoolReachable 10 3 (initPool 10 3) := PoolReachable.init
  have hstep : PoolStep (initPool 10 3)
      ⟨10, 4, [TaskPhase.running, TaskPhase.pending, TaskPhase.pending]⟩ :=
    PoolStep.acquire (initPool 10 3) 0 (by decide) (by decide) (by decide)
  exact c3_bounded_concurrency 10 3 _ (PoolReachable.step h0 hstep)

end Backer
